import Mathlib

/-!
# Verification of the PlantCV YII (photosynthetic efficiency) analysis

Shallow embedding of `plantcv/plantcv/photosynthesis/analyze_yii.py`:
the `analyze_yii` entry point and its helper `_create_histogram`.

Machine floats are modelled as exact rationals extended with the IEEE
non-finite sentinels `nan`, `inf`, `ninf`.  Every arithmetic step the
source performs on the values the claims quantify over (subtraction of
equal operands, division with a zero or non-finite operand, comparison
with 0) is exact in this model, so no rounding behaviour is lost where
the claims look.
-/

namespace PlantCV

/-- Model of an IEEE double as carried around by numpy: an exact rational
or one of the non-finite sentinels. -/
inductive PFloat where
  | nan : PFloat
  | inf : PFloat
  | ninf : PFloat
  | fin : ℚ → PFloat
deriving DecidableEq, Repr

/-- IEEE subtraction on the model (numpy `-`): `nan` propagates,
`inf - inf = nan`, finite arithmetic is exact. -/
def psub : PFloat → PFloat → PFloat
  | .nan, _ => .nan
  | _, .nan => .nan
  | .fin a, .fin b => .fin (a - b)
  | .fin _, .inf => .ninf
  | .fin _, .ninf => .inf
  | .inf, .inf => .nan
  | .inf, _ => .inf
  | .ninf, .ninf => .nan
  | .ninf, _ => .ninf

/-- IEEE addition on the model (numpy `+`). -/
def padd : PFloat → PFloat → PFloat
  | .nan, _ => .nan
  | _, .nan => .nan
  | .fin a, .fin b => .fin (a + b)
  | .inf, .ninf => .nan
  | .ninf, .inf => .nan
  | .inf, _ => .inf
  | _, .inf => .inf
  | .ninf, _ => .ninf
  | _, .ninf => .ninf

/-- IEEE division on the model (numpy `/`): `0/0 = nan`, `x/0 = ±inf`
for finite nonzero `x`, finite division is exact. -/
def pdiv : PFloat → PFloat → PFloat
  | .nan, _ => .nan
  | _, .nan => .nan
  | .fin a, .fin b =>
      if b = 0 then (if a = 0 then .nan else if 0 < a then .inf else .ninf)
      else .fin (a / b)
  | .fin _, .inf => .fin 0
  | .fin _, .ninf => .fin 0
  | .inf, .fin b => if b < 0 then .ninf else .inf
  | .ninf, .fin b => if b < 0 then .inf else .ninf
  | .inf, _ => .nan
  | .ninf, _ => .nan

/-- The comparison `v > 0` as numpy evaluates it, used by
`yii.where(yii > 0)` and by the histogram prefilter; `nan > 0` is false. -/
def pgt0 : PFloat → Bool
  | .fin q => decide (0 < q)
  | .inf => true
  | _ => false

/-- The total order numpy sorting/aggregation uses on non-nan floats
(`ninf < finite < inf`).  Only ever applied to nan-free lists here. -/
def pleB : PFloat → PFloat → Bool
  | .ninf, _ => true
  | .fin _, .ninf => false
  | .fin x, .fin y => decide (x ≤ y)
  | .fin _, .inf => true
  | .inf, .inf => true
  | .inf, _ => false
  | .nan, _ => false
  | _, .nan => false

instance pleRelDecidable : DecidableRel (fun a b : PFloat => pleB a b = true) :=
  fun a b => instDecidableEqBool (pleB a b) true

/-- Sort a list of model floats ascending (numpy sorting of nan-free data). -/
def psort (l : List PFloat) : List PFloat :=
  l.insertionSort (fun a b => pleB a b = true)

/-- `np.median` over the non-nan values of a slice (xarray `.median` with
the default nan-skipping): sort, take the middle element, or the mean of
the two middle elements; nan for an empty selection. -/
def pmedian (l : List PFloat) : PFloat :=
  if l.length = 0 then .nan
  else
    let s := psort l
    if l.length % 2 = 1 then s.getD (l.length / 2) .nan
    else pdiv (padd (s.getD (l.length / 2 - 1) .nan) (s.getD (l.length / 2) .nan)) (.fin 2)

/-- Binary `max` on model floats. -/
def pmax2 (a b : PFloat) : PFloat := if pleB a b then b else a

/-- `np.max` over the non-nan values of a slice (xarray `.max` with the
default nan-skipping); nan for an empty selection. -/
def pmaxList : List PFloat → PFloat
  | [] => .nan
  | x :: xs => xs.foldl pmax2 x

/-- `scipy.stats.mode` with `nan_policy="omit"` on the non-nan values of
a slice: the most frequent value, smallest first on ties; nan for an
empty selection. -/
def pmode (l : List PFloat) : PFloat :=
  match psort l.dedup with
  | [] => .nan
  | d :: ds => ds.foldl (fun best v => if l.count best < l.count v then v else best) d

/-- The photosynthesis `xarray.DataArray`: a labelled 4D stack with axes
(x, y, frame_label, measurement).  `data` is indexed by row, column,
frame index and measurement index; `frameLabels` and `measLabels` are
the coordinate labels of the two trailing axes; `name` is the variant
tag of the array. -/
structure PSDataArray where
  rows : ℕ
  cols : ℕ
  frameLabels : List String
  measLabels : List String
  name : String
  data : ℕ → ℕ → ℕ → ℕ → ℚ

/-- The 2D numpy mask: shape, dtype tag and pixel values. -/
structure Mask where
  rows : ℕ
  cols : ℕ
  dtype : String
  data : ℕ → ℕ → ℕ

/-- All mask pixel values in row-major order (what `np.unique` sees). -/
def maskVals (mask : Mask) : List ℕ :=
  (List.range mask.rows).flatMap (fun i => (List.range mask.cols).map (fun j => mask.data i j))

/-- `len(np.unique(mask))`: the number of distinct pixel values. -/
def maskUniqueCount (mask : Mask) : ℕ := (maskVals mask).dedup.length

/-- `xarray.sel(frame_label=lbl)` resolved to a frame index: position of
the label on the frame axis, `none` when the label is absent (Python
raises `KeyError` there). -/
def selFrame (ps : PSDataArray) (lbl : String) : Option ℕ :=
  ps.frameLabels.findIdx? (fun s => s == lbl)

/-- `yii0 = ps_da.astype('float').where(mask > 0, other=np.nan)` read at
one cell: the float-cast stack value where the (broadcast) mask is
positive, nan elsewhere. -/
def yii0 (ps : PSDataArray) (mask : Mask) (i j f m : ℕ) : PFloat :=
  if 0 < mask.data i j then .fin (ps.data i j f m) else .nan

/-- The efficiency map `(sel numFrame - sel denomSubFrame) / sel numFrame`
computed elementwise on the masked float stack.  For `darkadapted` the
frame pair is (Fm, F0); for `lightadapted` the per-measurement groupby
applies the same pointwise formula with (Fmp, Fp), which elementwise is
this same map. -/
def yiiMap (ps : PSDataArray) (mask : Mask) (fmIdx f0Idx : ℕ) : ℕ → ℕ → ℕ → PFloat :=
  fun i j m => pdiv (psub (yii0 ps mask i j fmIdx m) (yii0 ps mask i j f0Idx m)) (yii0 ps mask i j fmIdx m)

/-- One measurement slice of the efficiency map flattened row-major
(`yii.isel(measurement=i).values`). -/
def sliceVals (yii : ℕ → ℕ → ℕ → PFloat) (rows cols m : ℕ) : List PFloat :=
  (List.range rows).flatMap (fun i => (List.range cols).map (fun j => yii i j m))

/-- The values `yii.where(yii > 0)` keeps in one measurement slice, the
input of the per-measurement median/max/mode reductions. -/
def posVals (yii : ℕ → ℕ → ℕ → PFloat) (rows cols m : ℕ) : List PFloat :=
  (sliceVals yii rows cols m).filter pgt0

/-! ## Histogram builder (`_create_histogram`)

The source keeps the values `> 0` and calls
`np.histogram(kept, 100, range=(0, 1))`: 100 equal-width bins on [0, 1],
half-open except the last, which includes the top edge.  A model float
is counted exactly when it is a finite `q` with `0 < q ≤ 1` (nan, ±inf
and values outside the range fall out of every bin). -/

/-- The bin a value lands in: `some k` with `k = min ⌊q * 100⌋ 99` for a
finite `q` with `0 < q ≤ 1` (the `> 0` prefilter plus the fixed
`range=(0, 1)`), `none` otherwise. -/
def binOf : PFloat → Option ℕ
  | .fin q => if 0 < q ∧ q ≤ 1 then some (if q = 1 then 99 else (⌊q * 100⌋).toNat) else none
  | _ => none

/-- `yii_hist`: the 100 bin counts of `np.histogram(kept, 100, range=(0,1))`. -/
def histCounts (vals : List PFloat) : List ℕ :=
  (List.range 100).map (fun k => (vals.filter (fun v => binOf v = some k)).length)

/-- `yii_bins[:-1]`: the 100 lower bin edges `k/100`. -/
def binEdges : List ℚ := (List.range 100).map (fun k => (k : ℚ) / 100)

/-- `np.argmax`: index of the first occurrence of the maximum value. -/
def npArgmax (l : List ℕ) : ℕ := l.findIdx (fun x => x = l.foldr max 0)

/-- `hist_df`: one row per bin with the count column 'Plant Pixels' and
the lower-edge column named after the measurement label. -/
structure HistDF where
  counts : List ℕ
  edges : List ℚ
  colName : String
deriving DecidableEq, Repr

/-- `hist_fig`: the plotnine line plot of count against lower edge, with
the peak-bin lower edge (`max_bin = yii_bins[np.argmax(yii_hist)]`)
surfaced in the text label, titled with the measurement label. -/
structure HistFig where
  df : HistDF
  peakLbl : ℚ
  title : String
  xlab : String
deriving DecidableEq, Repr

/-- `_create_histogram(yii_img, mlabel)`. -/
def createHistogram (vals : List PFloat) (mlabel : String) : HistDF × HistFig :=
  let df : HistDF := { counts := histCounts vals, edges := binEdges, colName := mlabel }
  (df,
   { df := df,
     peakLbl := binEdges.getD (npArgmax (histCounts vals)) 0,
     title := mlabel,
     xlab := "photosynthetic efficiency (yii)" })

/-! ## Observations (`outputs.add_observation`) and the analyzer -/

/-- The `value=` payload of an observation: a float for median/mode/max,
the list of bin counts for the histogram observation. -/
inductive ObsValue where
  | fl : PFloat → ObsValue
  | li : List ℕ → ObsValue
deriving DecidableEq, Repr

/-- The `label=` payload of an observation: the literal string 'none'
for the scalar statistics, the rounded bin edges for the histogram. -/
inductive ObsLabel where
  | strLabel : String → ObsLabel
  | numList : List ℚ → ObsLabel
deriving DecidableEq, Repr

/-- One record appended to the process-wide `outputs` store. -/
structure Observation where
  sample : String
  varname : String
  trait : String
  method : String
  scale : String
  datatype : String
  value : ObsValue
  obsLabel : ObsLabel
deriving DecidableEq, Repr

/-- `np.around(x, decimals=2)` on the bin edges; every edge is an exact
multiple of 1/100, so any 2-decimal rounding fixes it. -/
def around2 (q : ℚ) : ℚ := (round (q * 100) : ℤ) / 100

def mkObs (sample varname trait datatype : String) (value : ObsValue) (olabel : ObsLabel) : Observation :=
  { sample := sample, varname := varname, trait := trait,
    method := "plantcv.plantcv.photosynthesis.analyze_yii", scale := "none",
    datatype := datatype, value := value, obsLabel := olabel }

/-- The label the loop uses for measurement `i`: the explicit
`measurement_labels[i]` when given, else the stack's own measurement
coordinate value. -/
def resolveLabel (ps : PSDataArray) (mls : Option (List String)) (i : ℕ) : String :=
  match mls with
  | some ls => ls.getD i ""
  | none => ps.measLabels.getD i ""

/-- The four observations the loop body records for measurement `i`:
median, mode, max and histogram.  The source materializes the three
per-measurement groupby reductions as arrays `yii_median`, `yii_mode`,
`yii_max` before the loop and indexes them at `i`; the computation is
pure, so the value read at `i` is the reduction of slice `i` used here. -/
def obsFor (ps : PSDataArray) (mask : Mask) (mls : Option (List String)) (label : String)
    (fmIdx f0Idx : ℕ) (i : ℕ) : List Observation :=
  [ mkObs label ("yii_median_" ++ resolveLabel ps mls i) "median yii value" "float"
      (.fl (pmedian (posVals (yiiMap ps mask fmIdx f0Idx) ps.rows ps.cols i))) (.strLabel "none"),
    mkObs label ("yii_mode_" ++ resolveLabel ps mls i) "mode yii value" "float"
      (.fl (pmode (posVals (yiiMap ps mask fmIdx f0Idx) ps.rows ps.cols i))) (.strLabel "none"),
    mkObs label ("yii_max_" ++ resolveLabel ps mls i) "peak yii value" "float"
      (.fl (pmaxList (posVals (yiiMap ps mask fmIdx f0Idx) ps.rows ps.cols i))) (.strLabel "none"),
    mkObs label ("yii_hist_" ++ resolveLabel ps mls i) "yii frequencies" "list"
      (.li (createHistogram (sliceVals (yiiMap ps mask fmIdx f0Idx) ps.rows ps.cols i) (resolveLabel ps mls i)).1.counts)
      (.numList ((createHistogram (sliceVals (yiiMap ps mask fmIdx f0Idx) ps.rows ps.cols i) (resolveLabel ps mls i)).1.edges.map around2)) ]

/-- The histogram figure built in iteration `i` of the loop. -/
def figFor (ps : PSDataArray) (mask : Mask) (mls : Option (List String))
    (fmIdx f0Idx : ℕ) (i : ℕ) : HistFig :=
  (createHistogram (sliceVals (yiiMap ps mask fmIdx f0Idx) ps.rows ps.cols i) (resolveLabel ps mls i)).2

/-- One iteration of the measurement loop: append the four observations
and overwrite the `hist_fig` variable (which starts out unassigned,
hence the `Option`). -/
def obsStep (g : ℕ → List Observation) (f : ℕ → HistFig)
    (acc : List Observation × Option HistFig) (i : ℕ) : List Observation × Option HistFig :=
  (acc.1 ++ g i, some (f i))

/-- How a call can fail: `fatal_error` with its message, a Python
`NameError`/`UnboundLocalError` on the named local, or a `KeyError` from
selecting an absent frame label. -/
inductive AnalyzeError where
  | fatal : String → AnalyzeError
  | nameError : String → AnalyzeError
  | keyError : String → AnalyzeError
deriving DecidableEq, Repr

/-- The successful outcome: the returned efficiency map (frame axis
consumed), the returned last histogram figure, and the observations the
call appended to the store. -/
structure AnalyzeResult where
  rows : ℕ
  cols : ℕ
  nMeas : ℕ
  yii : ℕ → ℕ → ℕ → PFloat
  hist_fig : HistFig
  observations : List Observation

/-- The message of the first fatal precondition failure, if any, in
source order: shape, then dtype/binarity, then label count. -/
def shapeMsg (r c : ℕ) : String :=
  "Mask needs to have shape (" ++ toString r ++ ", " ++ toString c ++ ")"

def validateMsg (ps : PSDataArray) (mask : Mask) (mls : Option (List String)) : Option String :=
  if mask.rows ≠ ps.rows ∨ mask.cols ≠ ps.cols then some (shapeMsg ps.rows ps.cols)
  else if 2 < maskUniqueCount mask ∨ mask.dtype ≠ "uint8" then
    some "Mask must have dtype uint8 and be binary"
  else
    match mls with
    | some ls =>
        if ls.length ≠ ps.measLabels.length then
          some "measurement_labels must be the same length as the number of measurements in the DataArray"
        else none
    | none => none

/-- The variant dispatch on `var = ps_da.name.lower()`: resolve the two
frame labels of the formula.  An absent frame label is the `KeyError`
the `sel` call raises; an unrecognized variant leaves the local `yii`
unassigned, so the first later use raises `NameError` (`UnboundLocalError`). -/
def selectFrames (ps : PSDataArray) : Except AnalyzeError (ℕ × ℕ) :=
  if ps.name.toLower = "darkadapted" then
    match selFrame ps "Fm", selFrame ps "F0" with
    | some fm, some f0 => .ok (fm, f0)
    | none, _ => .error (.keyError "Fm")
    | some _, none => .error (.keyError "F0")
  else if ps.name.toLower = "lightadapted" then
    match selFrame ps "Fmp", selFrame ps "Fp" with
    | some fmp, some fp => .ok (fmp, fp)
    | none, _ => .error (.keyError "Fmp")
    | some _, none => .error (.keyError "Fp")
  else .error (.nameError "yii")

/-- Everything after validation and frame resolution: the efficiency
map, the measurement loop, and the return value.  With zero
measurements the loop never runs and the trailing use of `hist_fig`
raises `NameError`. -/
def analyzeCore (ps : PSDataArray) (mask : Mask) (mls : Option (List String)) (label : String)
    (fmIdx f0Idx : ℕ) : Except AnalyzeError AnalyzeResult :=
  match (List.range ps.measLabels.length).foldl
      (obsStep (obsFor ps mask mls label fmIdx f0Idx) (figFor ps mask mls fmIdx f0Idx))
      ([], none) with
  | (_, none) => .error (.nameError "hist_fig")
  | (obs, some fig) =>
      .ok { rows := ps.rows, cols := ps.cols, nMeas := ps.measLabels.length,
            yii := yiiMap ps mask fmIdx f0Idx, hist_fig := fig, observations := obs }

/-- `analyze_yii(ps_da, mask, measurement_labels, label)`. -/
def analyze_yii (ps : PSDataArray) (mask : Mask) (mls : Option (List String)) (label : String) :
    Except AnalyzeError AnalyzeResult :=
  match validateMsg ps mask mls with
  | some m => .error (.fatal m)
  | none =>
      match selectFrames ps with
      | .error e => .error e
      | .ok (fm, f0) => analyzeCore ps mask mls label fm f0

/-! ## Projections of a call outcome, used to state the claims -/

def resultYiiAt (e : Except AnalyzeError AnalyzeResult) (i j m : ℕ) : Option PFloat :=
  match e with
  | .ok r => some (r.yii i j m)
  | .error _ => none

def resultObsCount (e : Except AnalyzeError AnalyzeResult) : Option ℕ :=
  match e with
  | .ok r => some r.observations.length
  | .error _ => none

def resultFig (e : Except AnalyzeError AnalyzeResult) : Option HistFig :=
  match e with
  | .ok r => some r.hist_fig
  | .error _ => none

def resultOkB (e : Except AnalyzeError AnalyzeResult) : Bool :=
  match e with
  | .ok _ => true
  | .error _ => false

def findObsValue (e : Except AnalyzeError AnalyzeResult) (v : String) : Option ObsValue :=
  match e with
  | .ok r => (r.observations.find? (fun o => o.varname == v)).map (fun o => o.value)
  | .error _ => none

/-- The label-count precondition as the call checks it: if an explicit
label list is given it must match the measurement axis length. -/
def labelsOk (ps : PSDataArray) (mls : Option (List String)) : Prop :=
  ∀ ls, mls = some ls → ls.length = ps.measLabels.length

instance (ps : PSDataArray) (mls : Option (List String)) : Decidable (labelsOk ps mls) :=
  match mls with
  | some ls =>
      if h : ls.length = ps.measLabels.length then
        .isTrue (fun ls2 hls2 => by cases hls2; exact h)
      else .isFalse (fun hall => h (hall ls rfl))
  | none => .isTrue (fun ls2 hls2 => by cases hls2)

/-! ## Concrete inputs used by the end-to-end parts of the claims -/

/-- The 2x2x2x1 dark-adapted stack of the spec's end-to-end example:
F0 = 1 and Fm = 2 at every pixel, one measurement labelled "t0". -/
def stackD1 : PSDataArray :=
  { rows := 2, cols := 2, frameLabels := ["F0", "Fm"], measLabels := ["t0"],
    name := "darkadapted", data := fun _ _ f _ => if f = 1 then 2 else 1 }

/-- The same stack over two measurements "t0", "t1". -/
def stackD2 : PSDataArray :=
  { rows := 2, cols := 2, frameLabels := ["F0", "Fm"], measLabels := ["t0", "t1"],
    name := "darkadapted", data := fun _ _ f _ => if f = 1 then 2 else 1 }

/-- A 1x1 dark-adapted stack whose Fm and F0 frames are both zero. -/
def stackZ : PSDataArray :=
  { rows := 1, cols := 1, frameLabels := ["F0", "Fm"], measLabels := ["t0"],
    name := "darkadapted", data := fun _ _ _ _ => 0 }

/-- A 1x1 dark-adapted stack whose Fm and F0 frames are both three. -/
def stackE3 : PSDataArray :=
  { rows := 1, cols := 1, frameLabels := ["F0", "Fm"], measLabels := ["t0"],
    name := "darkadapted", data := fun _ _ _ _ => 3 }

/-- A 1x1 stack whose variant tag is neither darkadapted nor lightadapted. -/
def stackU : PSDataArray :=
  { rows := 1, cols := 1, frameLabels := ["F0", "Fm"], measLabels := ["t0"],
    name := "fluorescence", data := fun _ _ f _ => if f = 1 then 2 else 1 }

/-- A 1x2 dark-adapted stack with F0 = 1, Fm = 2. -/
def stackR : PSDataArray :=
  { rows := 1, cols := 2, frameLabels := ["F0", "Fm"], measLabels := ["t0"],
    name := "darkadapted", data := fun _ _ f _ => if f = 1 then 2 else 1 }

/-- A 1x3 stack used only to exercise the mask binarity check. -/
def stackB3 : PSDataArray :=
  { rows := 1, cols := 3, frameLabels := ["F0", "Fm"], measLabels := ["t0"],
    name := "darkadapted", data := fun _ _ f _ => if f = 1 then 2 else 1 }

/-- A 2x2 uint8 mask with every pixel 255. -/
def maskOn : Mask := { rows := 2, cols := 2, dtype := "uint8", data := fun _ _ => 255 }

/-- A 1x1 uint8 mask with every pixel 1. -/
def maskOn1 : Mask := { rows := 1, cols := 1, dtype := "uint8", data := fun _ _ => 1 }

/-- A 2x2 uint8 mask in {0, 255} with pixel (0, 0) masked out. -/
def maskHole : Mask :=
  { rows := 2, cols := 2, dtype := "uint8",
    data := fun i j => if i = 0 ∧ j = 0 then 0 else 255 }

/-- A 1x2 uint8 mask whose two distinct values are 5 and 7. -/
def mask57 : Mask :=
  { rows := 1, cols := 2, dtype := "uint8", data := fun _ j => if j = 0 then 5 else 7 }

/-- A 1x3 uint8 mask with three distinct values 1, 2, 3. -/
def maskBad3 : Mask := { rows := 1, cols := 3, dtype := "uint8", data := fun _ j => j + 1 }

/-- A 1x1 mask, the wrong shape for the 2x2 stacks. -/
def maskWrong : Mask := { rows := 1, cols := 1, dtype := "uint8", data := fun _ _ => 255 }

/-! ## Helper lemmas -/

theorem validateMsg_eq_none (ps : PSDataArray) (mask : Mask) (mls : Option (List String))
    (hr : mask.rows = ps.rows) (hc : mask.cols = ps.cols)
    (hu : maskUniqueCount mask ≤ 2) (hd : mask.dtype = "uint8")
    (hl : labelsOk ps mls) : validateMsg ps mask mls = none := by
  have hu2 : ¬ 2 < maskUniqueCount mask := not_lt.mpr hu
  cases mls with
  | none => simp [validateMsg, hr, hc, hd, hu2]
  | some ls => simp [validateMsg, hr, hc, hd, hu2, hl ls rfl]

theorem selectFrames_dark (ps : PSDataArray) (fm f0 : ℕ)
    (hn : ps.name.toLower = "darkadapted")
    (hfm : selFrame ps "Fm" = some fm) (hf0 : selFrame ps "F0" = some f0) :
    selectFrames ps = .ok (fm, f0) := by
  simp [selectFrames, hn, hfm, hf0]

theorem selectFrames_light (ps : PSDataArray) (fmp fp : ℕ)
    (hn : ps.name.toLower = "lightadapted")
    (hfmp : selFrame ps "Fmp" = some fmp) (hfp : selFrame ps "Fp" = some fp) :
    selectFrames ps = .ok (fmp, fp) := by
  simp [selectFrames, hn, hfmp, hfp]

theorem foldl_obsStep_fst (g : ℕ → List Observation) (f : ℕ → HistFig) :
    ∀ (n : ℕ) (acc : List Observation × Option HistFig),
      ((List.range n).foldl (obsStep g f) acc).1 = acc.1 ++ (List.range n).flatMap g := by
  intro n
  induction n with
  | zero => intro acc; simp
  | succ k ih =>
      intro acc
      rw [List.range_succ, List.foldl_append, List.flatMap_append]
      simp [obsStep, ih, List.append_assoc]

theorem foldl_obsStep_snd (g : ℕ → List Observation) (f : ℕ → HistFig) (n : ℕ)
    (acc : List Observation × Option HistFig) (h : 0 < n) :
    ((List.range n).foldl (obsStep g f) acc).2 = some (f (n - 1)) := by
  obtain ⟨k, rfl⟩ : ∃ k, n = k + 1 := ⟨n - 1, (Nat.succ_pred_eq_of_pos h).symm⟩
  rw [List.range_succ, List.foldl_append]
  simp [obsStep]

theorem analyzeCore_eq_ok (ps : PSDataArray) (mask : Mask) (mls : Option (List String))
    (label : String) (fm f0 : ℕ) (h : 0 < ps.measLabels.length) :
    analyzeCore ps mask mls label fm f0 =
      .ok { rows := ps.rows, cols := ps.cols, nMeas := ps.measLabels.length,
            yii := yiiMap ps mask fm f0,
            hist_fig := figFor ps mask mls fm f0 (ps.measLabels.length - 1),
            observations :=
              (List.range ps.measLabels.length).flatMap (obsFor ps mask mls label fm f0) } := by
  have h1 := foldl_obsStep_fst (obsFor ps mask mls label fm f0) (figFor ps mask mls fm f0)
    ps.measLabels.length ([], none)
  have h2 := foldl_obsStep_snd (obsFor ps mask mls label fm f0) (figFor ps mask mls fm f0)
    ps.measLabels.length ([], none) h
  unfold analyzeCore
  rcases hr : (List.range ps.measLabels.length).foldl
      (obsStep (obsFor ps mask mls label fm f0) (figFor ps mask mls fm f0)) ([], none)
    with ⟨obs, figO⟩
  rw [hr] at h1 h2
  simp only [List.nil_append] at h1
  subst h1
  simp only at h2
  subst h2
  rfl

theorem analyze_eq_core (ps : PSDataArray) (mask : Mask) (mls : Option (List String))
    (label : String) (fm f0 : ℕ)
    (hr : mask.rows = ps.rows) (hc : mask.cols = ps.cols)
    (hu : maskUniqueCount mask ≤ 2) (hd : mask.dtype = "uint8")
    (hl : labelsOk ps mls) (hsel : selectFrames ps = .ok (fm, f0)) :
    analyze_yii ps mask mls label = analyzeCore ps mask mls label fm f0 := by
  unfold analyze_yii
  rw [validateMsg_eq_none ps mask mls hr hc hu hd hl, hsel]

theorem binOf_lt (v : PFloat) (k : ℕ) (h : binOf v = some k) : k < 100 := by
  cases v with
  | nan => simp [binOf] at h
  | inf => simp [binOf] at h
  | ninf => simp [binOf] at h
  | fin q =>
      simp only [binOf] at h
      by_cases hq : 0 < q ∧ q ≤ 1
      · rw [if_pos hq] at h
        by_cases h1 : q = 1
        · rw [if_pos h1] at h
          simp at h
          omega
        · rw [if_neg h1] at h
          simp at h
          have hlt : q < 1 := lt_of_le_of_ne hq.2 h1
          have hfl : ⌊q * 100⌋ < 100 := by
            rw [Int.floor_lt]
            push_cast
            nlinarith [hq.1]
          have hnn : (0 : ℤ) ≤ ⌊q * 100⌋ := Int.floor_nonneg.mpr (by nlinarith [hq.1])
          omega
      · rw [if_neg hq] at h
        simp at h

theorem sum_map_range (f : ℕ → ℕ) (n : ℕ) :
    ((List.range n).map f).sum = ∑ i ∈ Finset.range n, f i := by
  induction n with
  | zero => simp
  | succ k ih =>
      rw [List.range_succ, List.map_append, List.sum_append, Finset.sum_range_succ, ih]
      simp

theorem sum_indicator_bin (v : PFloat) :
    (∑ k ∈ Finset.range 100, if binOf v = some k then 1 else 0) =
      if (binOf v).isSome then 1 else 0 := by
  cases hb : binOf v with
  | none => simp
  | some k0 =>
      have hk := binOf_lt v k0 hb
      simp only [Option.isSome_some, if_true, Option.some.injEq]
      rw [Finset.sum_ite_eq (Finset.range 100) k0 (fun _ => 1)]
      simp [hk]

theorem histCounts_sum (vals : List PFloat) :
    (histCounts vals).sum = (vals.filter (fun v => (binOf v).isSome)).length := by
  induction vals with
  | nil => simp [histCounts]
  | cons v vs ih =>
      have step : ∀ k, ((v :: vs).filter (fun x => decide (binOf x = some k))).length =
          (if binOf v = some k then 1 else 0) +
            ((vs).filter (fun x => decide (binOf x = some k))).length := by
        intro k
        by_cases h : binOf v = some k
        · simp [h, Nat.add_comm]
        · simp [h]
      unfold histCounts
      rw [sum_map_range]
      have : (∑ k ∈ Finset.range 100,
            ((v :: vs).filter (fun x => decide (binOf x = some k))).length) =
          (∑ k ∈ Finset.range 100, ((if binOf v = some k then 1 else 0) +
            ((vs).filter (fun x => decide (binOf x = some k))).length)) := by
        apply Finset.sum_congr rfl
        intro k _
        exact step k
      rw [this, Finset.sum_add_distrib, sum_indicator_bin]
      rw [← sum_map_range (fun k => ((vs).filter (fun x => decide (binOf x = some k))).length) 100]
      have ihr : ((List.range 100).map
            (fun k => ((vs).filter (fun x => decide (binOf x = some k))).length)).sum =
          ((vs).filter (fun v => (binOf v).isSome)).length := ih
      rw [ihr]
      by_cases hv : (binOf v).isSome
      · simp [List.filter_cons, hv, Nat.add_comm]
      · simp [List.filter_cons, hv]

theorem foldr_max_mem (l : List ℕ) (h : l ≠ []) : l.foldr max 0 ∈ l := by
  induction l with
  | nil => exact absurd rfl h
  | cons x xs ih =>
      rcases eq_or_ne xs [] with rfl | hne
      · simp
      · have hm := ih hne
        rcases max_choice x (xs.foldr max 0) with hc | hc
        · rw [List.foldr_cons, hc]; exact List.mem_cons_self x xs
        · rw [List.foldr_cons, hc]; exact List.mem_cons_of_mem x hm

theorem le_foldr_max (l : List ℕ) : ∀ a ∈ l, a ≤ l.foldr max 0 := by
  induction l with
  | nil => simp
  | cons x xs ih =>
      intro a ha
      rcases List.mem_cons.mp ha with rfl | hmem
      · exact le_max_left a (xs.foldr max 0)
      · exact le_trans (ih a hmem) (le_max_right x (xs.foldr max 0))

theorem npArgmax_lt_length (l : List ℕ) (h : l ≠ []) : npArgmax l < l.length := by
  apply List.findIdx_lt_length_of_exists
  exact ⟨l.foldr max 0, foldr_max_mem l h, by simp⟩

theorem npArgmax_getD (l : List ℕ) (h : l ≠ []) : l.getD (npArgmax l) 0 = l.foldr max 0 := by
  have hlt := npArgmax_lt_length l h
  have hp : (l.get ⟨npArgmax l, hlt⟩ == l.foldr max 0) = true :=
    @List.findIdx_getElem ℕ (fun x => x == l.foldr max 0) l hlt
  have hg : l.getD (npArgmax l) 0 = l.get ⟨npArgmax l, hlt⟩ := by
    simp [List.getD_eq_getElem?_getD, List.getElem?_eq_getElem hlt]
  rw [hg]
  simpa using hp

theorem npArgmax_first (l : List ℕ) (j : ℕ) (hj : j < npArgmax l) :
    l.getD j 0 ≠ l.foldr max 0 := by
  have hlen : j < l.length := Nat.lt_of_lt_of_le hj (List.findIdx_le_length _)
  have hp : (l.get ⟨j, hlen⟩ == l.foldr max 0) = false :=
    @List.not_of_lt_findIdx ℕ (fun x => x == l.foldr max 0) l j hj
  have hg : l.getD j 0 = l.get ⟨j, hlen⟩ := by
    simp [List.getD_eq_getElem?_getD, List.getElem?_eq_getElem hlen]
  rw [hg]
  intro hcontra
  rw [hcontra] at hp
  simp at hp

/-! ## The claims -/

/-- C1: for every dark-adapted stack passing validation, `analyze_yii`
computes the efficiency map as `(Fm - F0) / Fm` elementwise over the
masked, float-cast stack using the frames labelled "Fm" and "F0"; and
on the 2x2x2x1 dark-adapted stack with F0 = 1, Fm = 2 and every mask
pixel set, the map is 0.5 at every pixel and the recorded median, max
and mode observations all equal 0.5. -/
theorem claim1_dark_formula_and_example :
    (∀ (ps : PSDataArray) (mask : Mask) (mls : Option (List String)) (label : String)
       (fm f0 i j m : ℕ),
       ps.name.toLower = "darkadapted" →
       selFrame ps "Fm" = some fm → selFrame ps "F0" = some f0 →
       mask.rows = ps.rows → mask.cols = ps.cols →
       maskUniqueCount mask ≤ 2 → mask.dtype = "uint8" →
       labelsOk ps mls → 0 < ps.measLabels.length →
       resultYiiAt (analyze_yii ps mask mls label) i j m =
         some (pdiv (psub (yii0 ps mask i j fm m) (yii0 ps mask i j f0 m))
                    (yii0 ps mask i j fm m)))
    ∧ ((∀ i < 2, ∀ j < 2,
          resultYiiAt (analyze_yii stackD1 maskOn none "default") i j 0 =
            some (PFloat.fin (1 / 2)))
       ∧ findObsValue (analyze_yii stackD1 maskOn none "default") "yii_median_t0" =
           some (ObsValue.fl (PFloat.fin (1 / 2)))
       ∧ findObsValue (analyze_yii stackD1 maskOn none "default") "yii_max_t0" =
           some (ObsValue.fl (PFloat.fin (1 / 2)))
       ∧ findObsValue (analyze_yii stackD1 maskOn none "default") "yii_mode_t0" =
           some (ObsValue.fl (PFloat.fin (1 / 2)))) := by
  constructor
  · intro ps mask mls label fm f0 i j m hn hfm hf0 hr hc hu hd hl hN
    rw [analyze_eq_core ps mask mls label fm f0 hr hc hu hd hl
        (selectFrames_dark ps fm f0 hn hfm hf0)]
    rw [analyzeCore_eq_ok ps mask mls label fm f0 hN]
    rfl
  · exact ⟨by with_unfolding_all decide, by with_unfolding_all decide,
      by with_unfolding_all decide, by with_unfolding_all decide⟩

/-- C1 witness: the formula part of C1 instantiated on the concrete
2x2x2x1 example stack at pixel (0, 0), measurement 0. -/
theorem claim1_witness :
    resultYiiAt (analyze_yii stackD1 maskOn none "default") 0 0 0 =
      some (pdiv (psub (yii0 stackD1 maskOn 0 0 1 0) (yii0 stackD1 maskOn 0 0 0 0))
                 (yii0 stackD1 maskOn 0 0 1 0)) :=
  claim1_dark_formula_and_example.1 stackD1 maskOn none "default" 1 0 0 0 0
    (by with_unfolding_all rfl) (by with_unfolding_all rfl) (by with_unfolding_all rfl)
    rfl rfl (by with_unfolding_all decide) rfl (by with_unfolding_all decide)
    (by with_unfolding_all decide)

/-- C2 counterexample: a dark-adapted stack with every mask pixel 1 and
frame Fm equal to frame F0 everywhere whose efficiency map is nan
(non-finite), not zero: both frames are zero, so the division is 0/0. -/
theorem claim2_cex :
    (∀ i < 1, ∀ j < 1, maskOn1.data i j = 1) ∧
    (∀ i < 1, ∀ j < 1, ∀ m < 1, stackZ.data i j 1 m = stackZ.data i j 0 m) ∧
    resultYiiAt (analyze_yii stackZ maskOn1 none "default") 0 0 0 = some PFloat.nan ∧
    some PFloat.nan ≠ some (PFloat.fin 0) := by
  refine ⟨by with_unfolding_all decide, by with_unfolding_all decide,
    by with_unfolding_all decide, by with_unfolding_all decide⟩

/-- C2 (amended): for a dark-adapted stack passing validation in which
every mask pixel is 1 and frame Fm equals frame F0 at every pixel and
measurement, AND the Fm value is nonzero at every pixel and measurement
(so no division is 0/0), the efficiency map is zero everywhere. -/
theorem claim2_amended :
    ∀ (ps : PSDataArray) (mask : Mask) (mls : Option (List String)) (label : String)
      (fm f0 : ℕ),
      ps.name.toLower = "darkadapted" →
      selFrame ps "Fm" = some fm → selFrame ps "F0" = some f0 →
      mask.rows = ps.rows → mask.cols = ps.cols →
      maskUniqueCount mask ≤ 2 → mask.dtype = "uint8" →
      labelsOk ps mls → 0 < ps.measLabels.length →
      (∀ i j, i < ps.rows → j < ps.cols → mask.data i j = 1) →
      (∀ i j m, i < ps.rows → j < ps.cols → m < ps.measLabels.length →
        ps.data i j fm m = ps.data i j f0 m) →
      (∀ i j m, i < ps.rows → j < ps.cols → m < ps.measLabels.length →
        ps.data i j fm m ≠ 0) →
      ∀ i j m, i < ps.rows → j < ps.cols → m < ps.measLabels.length →
        resultYiiAt (analyze_yii ps mask mls label) i j m = some (PFloat.fin 0) := by
  intro ps mask mls label fm f0 hn hfm hf0 hr hc hu hd hl hN hmask hEq hNe i j m hi hj hm
  rw [analyze_eq_core ps mask mls label fm f0 hr hc hu hd hl
      (selectFrames_dark ps fm f0 hn hfm hf0)]
  rw [analyzeCore_eq_ok ps mask mls label fm f0 hN]
  have h1 : yii0 ps mask i j fm m = .fin (ps.data i j fm m) := by
    simp [yii0, hmask i j hi hj]
  have h0 : yii0 ps mask i j f0 m = .fin (ps.data i j f0 m) := by
    simp [yii0, hmask i j hi hj]
  simp only [resultYiiAt, yiiMap, h1, h0, psub, hEq i j m hi hj hm, sub_self]
  simp [pdiv, hNe i j m hi hj hm]
  intro hz
  exact hNe i j m hi hj hm ((hEq i j m hi hj hm).trans hz)

/-- C2 witness: the amended statement instantiated on a 1x1 stack with
Fm = F0 = 3 everywhere and mask 1: the efficiency is exactly zero. -/
theorem claim2_witness :
    resultYiiAt (analyze_yii stackE3 maskOn1 none "default") 0 0 0 =
      some (PFloat.fin 0) :=
  claim2_amended stackE3 maskOn1 none "default" 1 0
    (by with_unfolding_all rfl) (by with_unfolding_all rfl) (by with_unfolding_all rfl)
    rfl rfl (by with_unfolding_all decide) rfl (by with_unfolding_all decide)
    (by with_unfolding_all decide) (fun _ _ _ _ => rfl) (fun _ _ _ _ _ _ => rfl)
    (fun _ _ _ _ _ _ => by show (3 : ℚ) ≠ 0; with_unfolding_all decide)
    0 0 0 (by with_unfolding_all decide) (by with_unfolding_all decide)
    (by with_unfolding_all decide)

/-- C7: for a dark-adapted stack passing validation, every pixel whose
mask value is 0 is nan (non-finite) in the efficiency map at every
measurement index. -/
theorem claim7_masked_out_nan :
    ∀ (ps : PSDataArray) (mask : Mask) (mls : Option (List String)) (label : String)
      (fm f0 i j m : ℕ),
      ps.name.toLower = "darkadapted" →
      selFrame ps "Fm" = some fm → selFrame ps "F0" = some f0 →
      mask.rows = ps.rows → mask.cols = ps.cols →
      maskUniqueCount mask ≤ 2 → mask.dtype = "uint8" →
      labelsOk ps mls → 0 < ps.measLabels.length →
      mask.data i j = 0 →
      resultYiiAt (analyze_yii ps mask mls label) i j m = some PFloat.nan := by
  intro ps mask mls label fm f0 i j m hn hfm hf0 hr hc hu hd hl hN hm0
  rw [analyze_eq_core ps mask mls label fm f0 hr hc hu hd hl
      (selectFrames_dark ps fm f0 hn hfm hf0)]
  rw [analyzeCore_eq_ok ps mask mls label fm f0 hN]
  simp [resultYiiAt, yiiMap, yii0, hm0, psub, pdiv]

/-- C7 witness: on the 2x2 example stack with pixel (0, 0) masked out,
the efficiency there is nan. -/
theorem claim7_witness :
    resultYiiAt (analyze_yii stackD1 maskHole none "default") 0 0 0 =
      some PFloat.nan :=
  claim7_masked_out_nan stackD1 maskHole none "default" 1 0 0 0 0
    (by with_unfolding_all rfl) (by with_unfolding_all rfl) (by with_unfolding_all rfl)
    rfl rfl (by with_unfolding_all decide) rfl (by with_unfolding_all decide)
    (by with_unfolding_all decide) (by with_unfolding_all decide)

/-- C3 counterexample: a stack whose variant tag is "fluorescence" and a
valid 1x1 mask: the call does not silently produce no output, it fails
with the unbound-local error on `yii` (the branchless dispatch leaves
`yii` unassigned and line 60 of the source then raises). -/
theorem claim3_cex :
    stackU.name = "fluorescence" ∧
    analyze_yii stackU maskOn1 none "default" =
      Except.error (AnalyzeError.nameError "yii") ∧
    resultOkB (analyze_yii stackU maskOn1 none "default") = false := by
  refine ⟨rfl, by with_unfolding_all rfl, by with_unfolding_all rfl⟩

/-- C3 (amended): for every stack whose lower-cased variant tag is
neither "darkadapted" nor "lightadapted", a call with a valid mask does
not return silently: it raises the Python unbound-local-variable error
for `yii` at the first use of the never-assigned efficiency map, and no
efficiency map or observation is produced. -/
theorem claim3_amended :
    ∀ (ps : PSDataArray) (mask : Mask) (mls : Option (List String)) (label : String),
      mask.rows = ps.rows → mask.cols = ps.cols →
      maskUniqueCount mask ≤ 2 → mask.dtype = "uint8" →
      labelsOk ps mls →
      ps.name.toLower ≠ "darkadapted" → ps.name.toLower ≠ "lightadapted" →
      analyze_yii ps mask mls label = .error (.nameError "yii") := by
  intro ps mask mls label hr hc hu hd hl hd1 hd2
  unfold analyze_yii
  rw [validateMsg_eq_none ps mask mls hr hc hu hd hl]
  simp [selectFrames, hd1, hd2]

/-- C3 witness: the amended statement instantiated on the concrete
"fluorescence" stack. -/
theorem claim3_witness :
    analyze_yii stackU maskOn1 none "default" = .error (.nameError "yii") :=
  claim3_amended stackU maskOn1 none "default" rfl rfl
    (by with_unfolding_all decide) rfl (by with_unfolding_all decide)
    (by with_unfolding_all decide) (by with_unfolding_all decide)

/-- C4 counterexample: a uint8 mask whose two distinct values are 5 and
7 (so not restricted to {0, 255} or {0, 1}) passes the binarity check
and the call succeeds, because the source only rejects more than two
distinct values or a non-uint8 dtype. -/
theorem claim4_cex :
    mask57.dtype = "uint8" ∧ mask57.data 0 0 = 5 ∧ mask57.data 0 1 = 7 ∧
    maskUniqueCount mask57 = 2 ∧
    resultOkB (analyze_yii stackR mask57 none "default") = true := by
  refine ⟨rfl, rfl, rfl, by with_unfolding_all decide, by with_unfolding_all decide⟩

/-- C4 (amended): the binarity precondition rejects exactly the masks
with more than two distinct values or a dtype other than uint8; any
such mask (of the right shape) makes the call fail with the fatal
binarity error regardless of stack content, while a uint8 mask with at
most two distinct values — binary or not, e.g. values {5, 7} — passes
the check. -/
theorem claim4_amended :
    ∀ (ps : PSDataArray) (mask : Mask) (mls : Option (List String)) (label : String),
      mask.rows = ps.rows → mask.cols = ps.cols →
      (2 < maskUniqueCount mask ∨ mask.dtype ≠ "uint8") →
      analyze_yii ps mask mls label =
        .error (.fatal "Mask must have dtype uint8 and be binary") := by
  intro ps mask mls label hr hc hbad
  have hv : validateMsg ps mask mls = some "Mask must have dtype uint8 and be binary" := by
    unfold validateMsg
    rw [if_neg (by simp [hr, hc]), if_pos hbad]
  unfold analyze_yii
  rw [hv]

/-- C4 witness: the amended statement instantiated on a 1x3 uint8 mask
with three distinct values. -/
theorem claim4_witness :
    analyze_yii stackB3 maskBad3 none "default" =
      .error (.fatal "Mask must have dtype uint8 and be binary") :=
  claim4_amended stackB3 maskBad3 none "default" rfl rfl
    (Or.inl (by with_unfolding_all decide))

/-- C5: every valid call — matching mask shape, binary uint8 mask,
matching label count, recognized variant with its two frames present,
at least one measurement — returns without raising; and every call
whose mask shape differs from the stack's row/column extent fails with
the fatal shape-mismatch error naming the expected shape. -/
theorem claim5_valid_ok_and_shape_error :
    (∀ (ps : PSDataArray) (mask : Mask) (mls : Option (List String)) (label : String),
       mask.rows = ps.rows → mask.cols = ps.cols →
       maskUniqueCount mask ≤ 2 → mask.dtype = "uint8" →
       labelsOk ps mls → 0 < ps.measLabels.length →
       ((ps.name.toLower = "darkadapted" ∧
           (selFrame ps "Fm").isSome ∧ (selFrame ps "F0").isSome) ∨
        (ps.name.toLower = "lightadapted" ∧
           (selFrame ps "Fmp").isSome ∧ (selFrame ps "Fp").isSome)) →
       resultOkB (analyze_yii ps mask mls label) = true)
    ∧ (∀ (ps : PSDataArray) (mask : Mask) (mls : Option (List String)) (label : String),
       mask.rows ≠ ps.rows ∨ mask.cols ≠ ps.cols →
       analyze_yii ps mask mls label = .error (.fatal (shapeMsg ps.rows ps.cols))) := by
  constructor
  · intro ps mask mls label hr hc hu hd hl hN hvar
    rcases hvar with ⟨hn, h1, h2⟩ | ⟨hn, h1, h2⟩
    · obtain ⟨fm, hfm⟩ := Option.isSome_iff_exists.mp h1
      obtain ⟨f0, hf0⟩ := Option.isSome_iff_exists.mp h2
      rw [analyze_eq_core ps mask mls label fm f0 hr hc hu hd hl
          (selectFrames_dark ps fm f0 hn hfm hf0)]
      rw [analyzeCore_eq_ok ps mask mls label fm f0 hN]
      rfl
    · obtain ⟨fmp, hfmp⟩ := Option.isSome_iff_exists.mp h1
      obtain ⟨fp, hfp⟩ := Option.isSome_iff_exists.mp h2
      rw [analyze_eq_core ps mask mls label fmp fp hr hc hu hd hl
          (selectFrames_light ps fmp fp hn hfmp hfp)]
      rw [analyzeCore_eq_ok ps mask mls label fmp fp hN]
      rfl
  · intro ps mask mls label hne
    have hv : validateMsg ps mask mls = some (shapeMsg ps.rows ps.cols) := by
      unfold validateMsg
      rw [if_pos hne]
    unfold analyze_yii
    rw [hv]

/-- C5 witness: a valid call on the 2x2 example stack succeeds, and the
same stack with a 1x1 mask fails with the shape-mismatch error naming
the expected 2x2 shape. -/
theorem claim5_witness :
    resultOkB (analyze_yii stackD1 maskOn none "default") = true ∧
    analyze_yii stackD1 maskWrong none "default" =
      .error (.fatal (shapeMsg stackD1.rows stackD1.cols)) :=
  ⟨claim5_valid_ok_and_shape_error.1 stackD1 maskOn none "default" rfl rfl
      (by with_unfolding_all decide) rfl (by with_unfolding_all decide)
      (by with_unfolding_all decide)
      (Or.inl ⟨by with_unfolding_all rfl, by with_unfolding_all rfl,
        by with_unfolding_all rfl⟩),
   claim5_valid_ok_and_shape_error.2 stackD1 maskWrong none "default"
      (Or.inl (by with_unfolding_all decide))⟩

theorem length_flatMap_four (f : ℕ → List Observation) (h : ∀ i, (f i).length = 4) :
    ∀ n, ((List.range n).flatMap f).length = 4 * n := by
  intro n
  induction n with
  | zero => simp
  | succ k ih =>
      rw [List.range_succ, List.flatMap_append, List.length_append, ih]
      simp [List.flatMap_singleton, h, Nat.mul_succ]

/-- C8: every successful call on a stack with N measurements records
exactly 4 N observations: one median, one mode, one max and one
histogram observation per measurement. -/
theorem claim8_observation_count :
    ∀ (ps : PSDataArray) (mask : Mask) (mls : Option (List String)) (label : String)
      (fm f0 : ℕ),
      mask.rows = ps.rows → mask.cols = ps.cols →
      maskUniqueCount mask ≤ 2 → mask.dtype = "uint8" →
      labelsOk ps mls → selectFrames ps = .ok (fm, f0) →
      0 < ps.measLabels.length →
      resultObsCount (analyze_yii ps mask mls label) =
        some (4 * ps.measLabels.length) := by
  intro ps mask mls label fm f0 hr hc hu hd hl hsel hN
  rw [analyze_eq_core ps mask mls label fm f0 hr hc hu hd hl hsel]
  rw [analyzeCore_eq_ok ps mask mls label fm f0 hN]
  simp only [resultObsCount, Option.some.injEq]
  exact length_flatMap_four (obsFor ps mask mls label fm f0) (fun i => rfl)
    ps.measLabels.length

/-- C8 witness: on the two-measurement example stack, exactly 8
observations are recorded. -/
theorem claim8_witness :
    resultObsCount (analyze_yii stackD2 maskOn none "default") = some 8 :=
  claim8_observation_count stackD2 maskOn none "default" 1 0 rfl rfl
    (by with_unfolding_all decide) rfl (by with_unfolding_all decide)
    (by with_unfolding_all rfl) (by with_unfolding_all decide)

/-- C9: every successful call returns exactly one histogram figure,
namely the one the loop built for the final measurement index
(`measLabels.length - 1`), not a collection of figures. -/
theorem claim9_last_figure :
    ∀ (ps : PSDataArray) (mask : Mask) (mls : Option (List String)) (label : String)
      (fm f0 : ℕ),
      mask.rows = ps.rows → mask.cols = ps.cols →
      maskUniqueCount mask ≤ 2 → mask.dtype = "uint8" →
      labelsOk ps mls → selectFrames ps = .ok (fm, f0) →
      0 < ps.measLabels.length →
      resultFig (analyze_yii ps mask mls label) =
        some ((createHistogram
          (sliceVals (yiiMap ps mask fm f0) ps.rows ps.cols (ps.measLabels.length - 1))
          (resolveLabel ps mls (ps.measLabels.length - 1))).2) := by
  intro ps mask mls label fm f0 hr hc hu hd hl hsel hN
  rw [analyze_eq_core ps mask mls label fm f0 hr hc hu hd hl hsel]
  rw [analyzeCore_eq_ok ps mask mls label fm f0 hN]
  rfl

/-- C9 witness: on the two-measurement example stack the returned
figure is the one built for measurement index 1 (label "t1"). -/
theorem claim9_witness :
    resultFig (analyze_yii stackD2 maskOn none "default") =
      some ((createHistogram
        (sliceVals (yiiMap stackD2 maskOn 1 0) stackD2.rows stackD2.cols
          (stackD2.measLabels.length - 1))
        (resolveLabel stackD2 none (stackD2.measLabels.length - 1))).2) :=
  claim9_last_figure stackD2 maskOn none "default" 1 0 rfl rfl
    (by with_unfolding_all decide) rfl (by with_unfolding_all decide)
    (by with_unfolding_all rfl) (by with_unfolding_all decide)

theorem binOf_isSome_eq (v : PFloat) :
    (binOf v).isSome =
      (match v with
       | PFloat.fin q => decide (0 < q ∧ q ≤ 1)
       | _ => false) := by
  cases v with
  | fin q =>
      by_cases h : 0 < q ∧ q ≤ 1 <;> simp [binOf, h]
  | nan => simp [binOf]
  | inf => simp [binOf]
  | ninf => simp [binOf]

/-- C6 counterexample: the input value 0 lies inside the claimed fixed
domain [0, 1], yet for the input [0] every bin count is 0, so the sum
of counts (0) differs from the number of in-range input values (1):
the builder's `> 0` prefilter excludes 0. -/
theorem claim6_cex :
    ((0 : ℚ) ≤ 0 ∧ (0 : ℚ) ≤ 1) ∧
    [PFloat.fin 0].length = 1 ∧
    (createHistogram [PFloat.fin 0] "t0").1.counts.sum = 0 := by
  refine ⟨by with_unfolding_all decide, rfl, by with_unfolding_all decide⟩

/-- C6 (amended): the builder always bins into exactly 100 equal-width
bins over [0, 1]; the sum of bin counts equals the number of finite
input values v with 0 < v ≤ 1 (values ≤ 0 — including 0 itself, cut by
the builder's positive-value prefilter — and values above 1 or
non-finite are excluded); and on [0.1, 0.1, 0.5, 0.99] the bin
containing 0.1 has count 2, the bins containing 0.5 and 0.99 have
count 1, and all other bins have count 0. -/
theorem claim6_amended :
    (∀ (vals : List PFloat) (mlabel : String),
       (createHistogram vals mlabel).1.counts.length = 100 ∧
       (createHistogram vals mlabel).1.edges =
         (List.range 100).map (fun k => (k : ℚ) / 100) ∧
       (createHistogram vals mlabel).1.counts.sum =
         (vals.filter (fun v =>
            match v with
            | PFloat.fin q => decide (0 < q ∧ q ≤ 1)
            | _ => false)).length)
    ∧ (∀ k < 100,
        (createHistogram
          [PFloat.fin (1 / 10), PFloat.fin (1 / 10), PFloat.fin (1 / 2),
           PFloat.fin (99 / 100)] "t0").1.counts.getD k 0 =
          if k = 10 then 2 else if k = 50 then 1 else if k = 99 then 1 else 0) := by
  constructor
  · intro vals mlabel
    refine ⟨by simp [createHistogram, histCounts], rfl, ?_⟩
    have hs := histCounts_sum vals
    have hf : vals.filter (fun v => (binOf v).isSome) =
        vals.filter (fun v =>
          match v with
          | PFloat.fin q => decide (0 < q ∧ q ≤ 1)
          | _ => false) :=
      List.filter_congr (fun v _ => binOf_isSome_eq v)
    simpa [createHistogram, hf] using hs
  · with_unfolding_all decide

/-- C6 witness: the amended count-conservation equation instantiated on
the input [0]. -/
theorem claim6_witness :
    (createHistogram [PFloat.fin 0] "t0").1.counts.sum =
      ([PFloat.fin 0].filter (fun v =>
        match v with
        | PFloat.fin q => decide (0 < q ∧ q ≤ 1)
        | _ => false)).length :=
  (claim6_amended.1 [PFloat.fin 0] "t0").2.2

theorem getD_map_range (f : ℕ → ℚ) (n i : ℕ) (h : i < n) :
    ((List.range n).map f).getD i 0 = f i := by
  rw [List.getD_eq_getElem?_getD]
  simp [List.getElem?_map, List.getElem?_range, h]

set_option maxRecDepth 8192 in
/-- C10: the peak-bin annotation of the histogram figure is the lower
edge of the first bin attaining the maximal count (`np.argmax` returns
the first occurrence of the maximum): the annotated edge is `idx/100`
where `idx` is below 100, the count at `idx` is maximal among all 100
bins, and every bin strictly before `idx` has a strictly smaller count;
in particular, for an input with no positive values every bin has count
0 and the annotated peak edge is 0. -/
theorem claim10_peak_bin_first_max :
    (∀ (vals : List PFloat) (mlabel : String),
       (createHistogram vals mlabel).2.peakLbl =
         (npArgmax (histCounts vals) : ℚ) / 100 ∧
       npArgmax (histCounts vals) < 100 ∧
       (∀ j, j < 100 →
         (histCounts vals).getD j 0 ≤
           (histCounts vals).getD (npArgmax (histCounts vals)) 0) ∧
       (∀ j, j < npArgmax (histCounts vals) →
         (histCounts vals).getD j 0 <
           (histCounts vals).getD (npArgmax (histCounts vals)) 0))
    ∧ ((createHistogram [PFloat.fin 0, PFloat.nan, PFloat.fin (-(1 : ℚ))] "t0").2.peakLbl = 0) := by
  constructor
  · intro vals mlabel
    have hlen : (histCounts vals).length = 100 := by simp [histCounts]
    have hne : histCounts vals ≠ [] := by
      intro hcon
      rw [hcon] at hlen
      simp at hlen
    have hidx : npArgmax (histCounts vals) < 100 := hlen ▸ npArgmax_lt_length _ hne
    have hmax := npArgmax_getD (histCounts vals) hne
    refine ⟨?_, hidx, ?_, ?_⟩
    · show binEdges.getD (npArgmax (histCounts vals)) 0 = _
      unfold binEdges
      exact getD_map_range (fun k => (k : ℚ) / 100) 100 _ hidx
    · intro j hj
      rw [hmax]
      have hjl : j < (histCounts vals).length := hlen ▸ hj
      have : (histCounts vals).getD j 0 = (histCounts vals).get ⟨j, hjl⟩ := by
        rw [List.getD_eq_getElem?_getD]
        simp [List.getElem?_eq_getElem hjl]
      rw [this]
      exact le_foldr_max (histCounts vals) _ (List.get_mem _ _ _)
    · intro j hj
      have hjl : j < 100 := Nat.lt_trans hj hidx
      have hle : (histCounts vals).getD j 0 ≤ (histCounts vals).getD (npArgmax (histCounts vals)) 0 := by
        rw [hmax]
        have hjl2 : j < (histCounts vals).length := hlen ▸ hjl
        have : (histCounts vals).getD j 0 = (histCounts vals).get ⟨j, hjl2⟩ := by
          rw [List.getD_eq_getElem?_getD]
          simp [List.getElem?_eq_getElem hjl2]
        rw [this]
        exact le_foldr_max (histCounts vals) _ (List.get_mem _ _ _)
      have hneq : (histCounts vals).getD j 0 ≠ (histCounts vals).getD (npArgmax (histCounts vals)) 0 := by
        rw [hmax]
        exact npArgmax_first (histCounts vals) j hj
      exact lt_of_le_of_ne hle hneq
  · with_unfolding_all decide

/-- C10 witness: the first-max description instantiated on the input
[0.05]: the annotated peak edge is `idx/100` with `idx < 100`. -/
theorem claim10_witness :
    (createHistogram [PFloat.fin (1 / 20)] "m").2.peakLbl =
      (npArgmax (histCounts [PFloat.fin (1 / 20)]) : ℚ) / 100 ∧
    npArgmax (histCounts [PFloat.fin (1 / 20)]) < 100 :=
  ⟨(claim10_peak_bin_first_max.1 [PFloat.fin (1 / 20)] "m").1,
   (claim10_peak_bin_first_max.1 [PFloat.fin (1 / 20)] "m").2.1⟩

end PlantCV

